import Mathlib

/-!
Shallow embedding of the Leave Management System core
(`my-first-mcp-server/db.py`): the in-memory employee/leave stores and the
operations `create_leave`, `get_leave`, `get_pending_leaves`,
`get_employee_leaves`, `approve_leave_record`, `reject_leave_record`,
`cancel_leave_record`, together with the helpers `_new_leave_id`,
`_parse_date` and `_count_days`.

Modelling conventions:
* Python dicts become association lists in insertion order (`dictGet`,
  `dictSet` mirror `d.get(k)` / `d[k] = v`: an update of an existing key
  keeps its position, a new key is appended at the end, as CPython does).
* Python `str.upper()` / `str.lower()` are modelled on the ASCII range
  (`pyUpper`, `pyLower`); every identifier the system stores or generates
  is ASCII, where the two agree with CPython.
* Calendar dates are structured `Date` values; `_parse_date` is modelled
  as the calendar-validity check `strptime("%Y-%m-%d")` performs (the
  string decoding itself is outside the embedding).  Date subtraction and
  comparison follow CPython: `toOrdinal` is `datetime.date.toordinal`
  (proleptic Gregorian), `dateLt` is the field-lexicographic comparison of
  `datetime.date`.
* A Python function that can raise becomes a function returning
  `Except LeaveError α × DB`: the returned `DB` is the state at exit, so
  mutations are written exactly where the source performs them and
  atomicity is a provable property, not an artefact of the encoding.
* `datetime.now()` timestamps (`created_at` / `updated_at`) and the
  presentation-only employee fields (department, role, email, manager id)
  are omitted: no core operation reads them.
-/

namespace LeaveDB

/-- ASCII model of Python `str.upper` on one character: `[a-z]` maps to
`[A-Z]`, everything else is fixed (`db.py` only uppercases ASCII ids). -/
def pyUpperChar (c : Char) : Char :=
  if 97 ≤ c.toNat ∧ c.toNat ≤ 122 then Char.ofNat (c.toNat - 32) else c

/-- ASCII model of Python `str.lower` on one character. -/
def pyLowerChar (c : Char) : Char :=
  if 65 ≤ c.toNat ∧ c.toNat ≤ 90 then Char.ofNat (c.toNat + 32) else c

/-- ASCII model of Python `str.upper`. -/
def pyUpper (s : String) : String := ⟨s.data.map pyUpperChar⟩

/-- ASCII model of Python `str.lower`. -/
def pyLower (s : String) : String := ⟨s.data.map pyLowerChar⟩

/-- A calendar date, the structured content of a `YYYY-MM-DD` string. -/
structure Date where
  year : Nat
  month : Nat
  day : Nat
deriving DecidableEq

/-- Gregorian leap-year test, as in CPython `datetime`. -/
def isLeap (y : Nat) : Bool :=
  y % 4 == 0 && (y % 100 != 0 || y % 400 == 0)

/-- Length of month `m` (1-based) of year `y`; `0` outside `1..12`. -/
def daysInMonth (y m : Nat) : Nat :=
  match m with
  | 1 => 31
  | 2 => if isLeap y then 29 else 28
  | 3 => 31
  | 4 => 30
  | 5 => 31
  | 6 => 30
  | 7 => 31
  | 8 => 31
  | 9 => 30
  | 10 => 31
  | 11 => 30
  | 12 => 31
  | _ => 0

/-- Days in the months of year `y` strictly before month `m`. -/
def daysBeforeMonth (y : Nat) : Nat → Nat
  | 0 => 0
  | m + 1 => daysBeforeMonth y m + daysInMonth y m

/-- Days in the years strictly before year `y`
(CPython `datetime._days_before_year`). -/
def daysBeforeYear (y : Nat) : Nat :=
  365 * (y - 1) + (y - 1) / 4 - (y - 1) / 100 + (y - 1) / 400

/-- `datetime.date.toordinal`: day number in the proleptic Gregorian
calendar, with `0001-01-01` as day 1.  CPython computes date differences
(`(e - s).days`) as the difference of ordinals. -/
def toOrdinal (d : Date) : Nat :=
  daysBeforeYear d.year + daysBeforeMonth d.year d.month + d.day

/-- The dates `strptime("%Y-%m-%d")` accepts: a real calendar date with a
four-digit year. -/
def Date.isValid (d : Date) : Bool :=
  1 ≤ d.year && d.year ≤ 9999 && 1 ≤ d.month && d.month ≤ 12 &&
    1 ≤ d.day && d.day ≤ daysInMonth d.year d.month

/-- CPython `datetime.date` comparison: field-lexicographic on
`(year, month, day)`. -/
def dateLt (a b : Date) : Bool :=
  a.year < b.year ||
    (a.year == b.year &&
      (a.month < b.month || (a.month == b.month && a.day < b.day)))

/-- Number of days of year `y`. -/
def daysInYear (y : Nat) : Nat := if isLeap y then 366 else 365

/-- Lookup in a Python dict modelled as an insertion-ordered association
list: `d.get(k)`. -/
def dictGet {α : Type} (d : List (String × α)) (k : String) : Option α :=
  match d with
  | [] => none
  | (k0, v) :: rest => if k0 = k then some v else dictGet rest k

/-- Update in a Python dict modelled as an insertion-ordered association
list: `d[k] = v`.  An existing key keeps its position, a new key is
appended at the end, as CPython does. -/
def dictSet {α : Type} (d : List (String × α)) (k : String) (v : α) :
    List (String × α) :=
  match d with
  | [] => [(k, v)]
  | (k0, v0) :: rest =>
    if k0 = k then (k0, v) :: rest else (k0, v0) :: dictSet rest k v

/-- The failure conditions the core raises (`raise ValueError(...)` sites
in `db.py`, plus the `KeyError` a direct dict index can raise), each
carrying the data its message interpolates. -/
inductive LeaveError where
  | employeeNotFound (employee_id : String)
  | invalidLeaveType (leave_type : String)
  | invalidDate (d : Date)
  | invalidDateRange
  | insufficientBalance (leave_type : String) (requested available : Int)
  | leaveNotFound (leave_id : String)
  | invalidTransition (leave_id : String) (status : String)
  | keyError (key : String)
deriving DecidableEq

/-- An employee record.  Only the fields the core reads are kept:
`id`, `name` and the per-leave-type balance dict (`leave_balance`).
Balances are integers: nothing in the code forces them non-negative. -/
structure Employee where
  id : String
  name : String
  leave_balance : List (String × Int)
deriving DecidableEq

/-- A leave request record, as built by `create_leave` (minus the two
wall-clock timestamp strings, which no core operation reads). -/
structure LeaveRecord where
  leave_id : String
  employee_id : String
  employee_name : String
  leave_type : String
  start_date : Date
  end_date : Date
  days : Int
  reason : String
  status : String
  rejection_reason : Option String
deriving DecidableEq

/-- The module-level mutable state of `db.py`: the `EMPLOYEES` dict, the
`LEAVES` dict and the `_leave_counter`. -/
structure DB where
  employees : List (String × Employee)
  leaves : List (String × LeaveRecord)
  leave_counter : Nat
deriving DecidableEq

/-- `VALID_LEAVE_TYPES` from `db.py`. -/
def VALID_LEAVE_TYPES : List String :=
  ["casual", "sick", "annual", "maternity", "paternity"]

/-- Decimal digits of `n`, most significant first (`[]` for `0`),
computed with structural fuel so it reduces in the kernel. -/
def natDigitsAux : Nat → Nat → List Nat
  | 0, _ => []
  | _ + 1, 0 => []
  | fuel + 1, n + 1 => natDigitsAux fuel ((n + 1) / 10) ++ [(n + 1) % 10]

/-- Decimal digits of `n`, most significant first. -/
def natDigits (n : Nat) : List Nat := natDigitsAux n n

/-- Left-pad a digit list with zeros to length `w`
(Python format specifier `0{w}d`). -/
def padZeros (w : Nat) (l : List Nat) : List Nat :=
  List.replicate (w - l.length) 0 ++ l

/-- The character of a decimal digit. -/
def digitChar (d : Nat) : Char := Char.ofNat (48 + d)

/-- Python `f"L{n:03d}"`: the id string the counter value `n` produces. -/
def leaveIdString (n : Nat) : String :=
  ⟨'L' :: (padZeros 3 (natDigits n)).map digitChar⟩

/-- `_new_leave_id`: formats the current counter and increments it. -/
def new_leave_id (db : DB) : String × DB :=
  (leaveIdString db.leave_counter,
   { db with leave_counter := db.leave_counter + 1 })

/-- `_parse_date`, modelled as the calendar validation
`datetime.strptime(s, "%Y-%m-%d")` performs on the already-structured
date. -/
def parse_date (d : Date) : Except LeaveError Date :=
  if d.isValid then .ok d else .error (.invalidDate d)

/-- `_count_days`: parse both dates, reject an inverted range, return the
inclusive span.  CPython compares dates field-lexicographically
(`dateLt`) and subtracts them by ordinal difference. -/
def count_days (start_d end_d : Date) : Except LeaveError Int :=
  match parse_date start_d with
  | .error e => .error e
  | .ok s =>
    match parse_date end_d with
    | .error e => .error e
    | .ok e =>
      if dateLt e s then
        .error .invalidDateRange
      else
        .ok ((toOrdinal e : Int) - (toOrdinal s : Int) + 1)

/-- The ledger read `emp["leave_balance"].get(leave_type, 0)`
(`db.py` line 160): the balance of `employee_id` for `leave_type`, with a
missing entry read as `0`. -/
def get_balance (db : DB) (employee_id leave_type : String) : Int :=
  match dictGet db.employees employee_id with
  | none => 0
  | some emp => (dictGet emp.leave_balance leave_type).getD 0

/-- `create_leave`: validate (employee, leave type, dates, balance) in
source order, then allocate an id and append the pending record. -/
def create_leave (db : DB) (employee_id leave_type : String)
    (start_date end_date : Date) (reason : String) :
    Except LeaveError LeaveRecord × DB :=
  match dictGet db.employees (pyUpper employee_id) with
  | none => (.error (.employeeNotFound employee_id), db)
  | some emp =>
    let lt := pyLower leave_type
    if ¬ VALID_LEAVE_TYPES.contains lt then
      (.error (.invalidLeaveType lt), db)
    else
      match count_days start_date end_date with
      | .error e => (.error e, db)
      | .ok days =>
        let balance := (dictGet emp.leave_balance lt).getD 0
        if days > balance then
          (.error (.insufficientBalance lt days balance), db)
        else
          let lid := leaveIdString db.leave_counter
          let record : LeaveRecord :=
            { leave_id := lid
              employee_id := pyUpper employee_id
              employee_name := emp.name
              leave_type := lt
              start_date := start_date
              end_date := end_date
              days := days
              reason := reason
              status := "pending"
              rejection_reason := none }
          (.ok record,
           { db with
               leave_counter := db.leave_counter + 1
               leaves := dictSet db.leaves lid record })

/-- `get_leave`: `LEAVES.get(leave_id.upper())`. -/
def get_leave (db : DB) (leave_id : String) : Option LeaveRecord :=
  dictGet db.leaves (pyUpper leave_id)

/-- `get_all_leaves`: `list(LEAVES.values())`, insertion order. -/
def get_all_leaves (db : DB) : List LeaveRecord :=
  db.leaves.map (·.2)

/-- `get_pending_leaves`: the pending records, insertion order. -/
def get_pending_leaves (db : DB) : List LeaveRecord :=
  (db.leaves.map (·.2)).filter (fun l => l.status == "pending")

/-- `get_employee_leaves`: the records of `employee_id.upper()`,
insertion order. -/
def get_employee_leaves (db : DB) (employee_id : String) :
    List LeaveRecord :=
  (db.leaves.map (·.2)).filter (fun l => l.employee_id == pyUpper employee_id)

/-- `approve_leave_record`: look up by uppercased id, require `pending`,
debit the balance (`emp["leave_balance"][lt] -= days`, a `KeyError` if
either index is missing), then mark approved. -/
def approve_leave_record (db : DB) (leave_id : String) :
    Except LeaveError LeaveRecord × DB :=
  match dictGet db.leaves (pyUpper leave_id) with
  | none => (.error (.leaveNotFound leave_id), db)
  | some record =>
    if record.status ≠ "pending" then
      (.error (.invalidTransition leave_id record.status), db)
    else
      match dictGet db.employees record.employee_id with
      | none => (.error (.keyError record.employee_id), db)
      | some emp =>
        match dictGet emp.leave_balance record.leave_type with
        | none => (.error (.keyError record.leave_type), db)
        | some bal =>
          let emp1 :=
            { emp with
                leave_balance :=
                  dictSet emp.leave_balance record.leave_type
                    (bal - record.days) }
          let record1 := { record with status := "approved" }
          (.ok record1,
           { db with
               employees := dictSet db.employees record.employee_id emp1
               leaves := dictSet db.leaves (pyUpper leave_id) record1 })

/-- `reject_leave_record`: look up by uppercased id, require `pending`,
record the rejection reason and mark rejected.  No ledger effect. -/
def reject_leave_record (db : DB) (leave_id rejection_reason : String) :
    Except LeaveError LeaveRecord × DB :=
  match dictGet db.leaves (pyUpper leave_id) with
  | none => (.error (.leaveNotFound leave_id), db)
  | some record =>
    if record.status ≠ "pending" then
      (.error (.invalidTransition leave_id record.status), db)
    else
      let record1 :=
        { record with
            status := "rejected"
            rejection_reason := some rejection_reason }
      (.ok record1,
       { db with leaves := dictSet db.leaves (pyUpper leave_id) record1 })

/-- `cancel_leave_record`: look up by uppercased id, require `pending` or
`approved`; credit the balance back only when it was approved; mark
cancelled. -/
def cancel_leave_record (db : DB) (leave_id : String) :
    Except LeaveError LeaveRecord × DB :=
  match dictGet db.leaves (pyUpper leave_id) with
  | none => (.error (.leaveNotFound leave_id), db)
  | some record =>
    if record.status ≠ "pending" ∧ record.status ≠ "approved" then
      (.error (.invalidTransition leave_id record.status), db)
    else if record.status = "approved" then
      match dictGet db.employees record.employee_id with
      | none => (.error (.keyError record.employee_id), db)
      | some emp =>
        match dictGet emp.leave_balance record.leave_type with
        | none => (.error (.keyError record.leave_type), db)
        | some bal =>
          let emp1 :=
            { emp with
                leave_balance :=
                  dictSet emp.leave_balance record.leave_type
                    (bal + record.days) }
          let record1 := { record with status := "cancelled" }
          (.ok record1,
           { db with
               employees := dictSet db.employees record.employee_id emp1
               leaves := dictSet db.leaves (pyUpper leave_id) record1 })
    else
      let record1 := { record with status := "cancelled" }
      (.ok record1,
       { db with leaves := dictSet db.leaves (pyUpper leave_id) record1 })

/-- The pre-seeded `EMPLOYEES` dict of `db.py` together with the empty
`LEAVES` dict and the initial counter value `1`. -/
def initDB : DB :=
  { employees :=
      [("E001",
        { id := "E001", name := "Alice Johnson"
          leave_balance :=
            [("casual", 10), ("sick", 12), ("annual", 20),
             ("maternity", 0), ("paternity", 5)] }),
       ("E002",
        { id := "E002", name := "Bob Smith"
          leave_balance :=
            [("casual", 8), ("sick", 10), ("annual", 18),
             ("maternity", 0), ("paternity", 5)] }),
       ("E003",
        { id := "E003", name := "Carol Williams"
          leave_balance :=
            [("casual", 10), ("sick", 12), ("annual", 25),
             ("maternity", 90), ("paternity", 0)] }),
       ("E004",
        { id := "E004", name := "David Brown"
          leave_balance :=
            [("casual", 10), ("sick", 12), ("annual", 22),
             ("maternity", 0), ("paternity", 5)] }),
       ("E005",
        { id := "E005", name := "Eva Martinez"
          leave_balance :=
            [("casual", 9), ("sick", 11), ("annual", 19),
             ("maternity", 90), ("paternity", 0)] })]
    leaves := []
    leave_counter := 1 }

/-- `approve/reject/cancel` echo the raw `leave_id` argument in two of
their failure messages; this maps that echoed argument, leaving every
other failure unchanged. -/
def LeaveError.mapLeaveId (f : String → String) : LeaveError → LeaveError
  | .leaveNotFound i => .leaveNotFound (f i)
  | .invalidTransition i st => .invalidTransition (f i) st
  | e => e

/- ───────────── helper lemmas: characters and case mapping ───────────── -/

theorem toNat_ofNat_of_lt {n : Nat} (h : n < 55296) :
    (Char.ofNat n).toNat = n := by
  have hv : n.isValidChar := Or.inl h
  rw [Char.ofNat, dif_pos hv]
  rfl

theorem pyUpperChar_idem (c : Char) :
    pyUpperChar (pyUpperChar c) = pyUpperChar c := by
  unfold pyUpperChar
  by_cases h : 97 ≤ c.toNat ∧ c.toNat ≤ 122
  · rw [if_pos h]
    have h1 : (Char.ofNat (c.toNat - 32)).toNat = c.toNat - 32 :=
      toNat_ofNat_of_lt (by omega)
    rw [if_neg (by rw [h1]; omega)]
  · rw [if_neg h, if_neg h]

theorem pyUpper_idem (s : String) : pyUpper (pyUpper s) = pyUpper s := by
  unfold pyUpper
  simp only [List.map_map]
  exact congrArg String.mk
    (List.map_congr_left fun c _ => pyUpperChar_idem c)

/- ───────────── helper lemmas: dict operations ───────────── -/

theorem dictGet_dictSet_self {α : Type} (d : List (String × α))
    (k : String) (v : α) : dictGet (dictSet d k v) k = some v := by
  induction d with
  | nil => simp [dictGet, dictSet]
  | cons p rest ih =>
    by_cases h : p.1 = k
    · simp [dictGet, dictSet, h]
    · simp [dictGet, dictSet, h, ih]

theorem dictGet_dictSet_ne {α : Type} (d : List (String × α))
    (k k' : String) (v : α) (h : k' ≠ k) :
    dictGet (dictSet d k v) k' = dictGet d k' := by
  induction d with
  | nil =>
    simp only [dictSet, dictGet]
    rw [if_neg (fun h1 : k = k' => h h1.symm)]
  | cons p rest ih =>
    simp only [dictSet]
    by_cases h0 : p.1 = k
    · rw [if_pos h0]
      subst h0
      simp only [dictGet]
      rw [if_neg (fun h1 : p.1 = k' => h h1.symm),
        if_neg (fun h1 : p.1 = k' => h h1.symm)]
    · rw [if_neg h0]
      simp only [dictGet]
      by_cases h1 : p.1 = k'
      · rw [if_pos h1, if_pos h1]
      · rw [if_neg h1, if_neg h1]
        exact ih

/- ───────────── helper lemmas: the id format is injective ───────────── -/

/-- Value of a big-endian decimal digit list. -/
def digitsVal (l : List Nat) : Nat :=
  l.foldl (fun a d => 10 * a + d) 0

theorem foldl_natDigitsAux (fuel : Nat) :
    ∀ n a, n ≤ fuel →
      (natDigitsAux fuel n).foldl (fun a d => 10 * a + d) a =
        a * 10 ^ (natDigitsAux fuel n).length + n := by
  induction fuel with
  | zero =>
    intro n a hn
    have : n = 0 := Nat.le_zero.mp hn
    subst this
    simp [natDigitsAux]
  | succ k ih =>
    intro n a hn
    match n with
    | 0 => simp [natDigitsAux]
    | m + 1 =>
      have hdiv : (m + 1) / 10 ≤ k := by
        have : (m + 1) / 10 < m + 1 := Nat.div_lt_self (Nat.succ_pos m) (by omega)
        omega
      have hmod := Nat.div_add_mod (m + 1) 10
      simp only [natDigitsAux, List.foldl_append, List.length_append,
        List.foldl_cons, List.foldl_nil, List.length_cons, List.length_nil]
      rw [ih ((m + 1) / 10) a hdiv]
      rw [Nat.pow_succ]
      ring_nf
      omega

theorem digitsVal_natDigits (n : Nat) : digitsVal (natDigits n) = n := by
  unfold digitsVal natDigits
  rw [foldl_natDigitsAux n n 0 (Nat.le_refl n)]
  simp

theorem digitsVal_padZeros (w : Nat) (l : List Nat) :
    digitsVal (padZeros w l) = digitsVal l := by
  unfold digitsVal padZeros
  rw [List.foldl_append]
  have : ∀ k, (List.replicate k (0 : Nat)).foldl (fun a d => 10 * a + d) 0 = 0 := by
    intro k
    induction k with
    | zero => simp
    | succ m ih => simpa [List.replicate_succ] using ih
  rw [this]

theorem natDigitsAux_lt (fuel : Nat) :
    ∀ n d, d ∈ natDigitsAux fuel n → d < 10 := by
  induction fuel with
  | zero => intro n d h; simp [natDigitsAux] at h
  | succ k ih =>
    intro n d h
    match n with
    | 0 => simp [natDigitsAux] at h
    | m + 1 =>
      simp only [natDigitsAux, List.mem_append, List.mem_singleton] at h
      rcases h with h | h
      · exact ih _ d h
      · subst h; exact Nat.mod_lt _ (by omega)

theorem padZeros_natDigits_lt (w n : Nat) :
    ∀ d ∈ padZeros w (natDigits n), d < 10 := by
  intro d h
  unfold padZeros at h
  rcases List.mem_append.mp h with h | h
  · have := List.eq_of_mem_replicate h
    omega
  · exact natDigitsAux_lt n n d h

theorem digitChar_toNat {d : Nat} (h : d < 10) :
    (digitChar d).toNat = 48 + d := by
  unfold digitChar
  exact toNat_ofNat_of_lt (by omega)

theorem map_digitChar_decode (l : List Nat) (h : ∀ d ∈ l, d < 10) :
    (l.map digitChar).map (fun c => c.toNat - 48) = l := by
  rw [List.map_map]
  have : ∀ d ∈ l, (fun c => c.toNat - 48) (digitChar d) = d := by
    intro d hd
    simp [digitChar_toNat (h d hd)]
  calc (l.map ((fun c => c.toNat - 48) ∘ digitChar)) = l.map id :=
        List.map_congr_left this
    _ = l := List.map_id l

theorem leaveIdString_injective : Function.Injective leaveIdString := by
  intro a b h
  unfold leaveIdString at h
  have hdata : ('L' :: (padZeros 3 (natDigits a)).map digitChar) =
      'L' :: (padZeros 3 (natDigits b)).map digitChar :=
    congrArg String.data h
  have hmap : (padZeros 3 (natDigits a)).map digitChar =
      (padZeros 3 (natDigits b)).map digitChar := by
    rw [List.cons.injEq] at hdata
    exact hdata.2
  have hlists : padZeros 3 (natDigits a) = padZeros 3 (natDigits b) := by
    have := congrArg (List.map (fun c => c.toNat - 48)) hmap
    rwa [map_digitChar_decode _ (padZeros_natDigits_lt 3 a),
      map_digitChar_decode _ (padZeros_natDigits_lt 3 b)] at this
  have := congrArg digitsVal hlists
  rwa [digitsVal_padZeros, digitsVal_padZeros, digitsVal_natDigits,
    digitsVal_natDigits] at this

/- ───────────── helper lemmas: the Gregorian calendar ───────────── -/

theorem isLeap_iff (y : Nat) :
    isLeap y = true ↔ (y % 4 = 0 ∧ (y % 100 ≠ 0 ∨ y % 400 = 0)) := by
  simp [isLeap, Bool.and_eq_true, Bool.or_eq_true]

theorem daysBeforeMonth_le (y : Nat) {m m' : Nat} (h : m ≤ m') :
    daysBeforeMonth y m ≤ daysBeforeMonth y m' := by
  induction m' with
  | zero =>
    have : m = 0 := Nat.le_zero.mp h
    subst this
    exact Nat.le_refl _
  | succ k ih =>
    rcases Nat.lt_succ_iff_lt_or_eq.mp (Nat.lt_succ_of_le h) with h1 | h1
    · calc daysBeforeMonth y m ≤ daysBeforeMonth y k :=
            ih (Nat.lt_succ_iff.mp h1)
        _ ≤ daysBeforeMonth y (k + 1) := Nat.le_add_right _ _
    · subst h1
      exact Nat.le_refl _

theorem daysBeforeMonth_thirteen (y : Nat) :
    daysBeforeMonth y 13 = daysInYear y := by
  have e : daysBeforeMonth y 13 =
      31 + daysInMonth y 2 + 31 + 30 + 31 + 30 + 31 + 31 + 30 + 31 + 30 + 31 :=
    rfl
  have h2 : daysInMonth y 2 = if isLeap y then 29 else 28 := rfl
  rw [e, h2]
  unfold daysInYear
  by_cases h : isLeap y
  · rw [if_pos h, if_pos h]
  · rw [if_neg h, if_neg h]

theorem month_contribution_le (y m d : Nat) (hm : m ≤ 12)
    (hd : d ≤ daysInMonth y m) :
    daysBeforeMonth y m + d ≤ daysInYear y := by
  calc daysBeforeMonth y m + d ≤ daysBeforeMonth y m + daysInMonth y m :=
        Nat.add_le_add_left hd _
    _ = daysBeforeMonth y (m + 1) := rfl
    _ ≤ daysBeforeMonth y 13 := daysBeforeMonth_le y (by omega)
    _ = daysInYear y := daysBeforeMonth_thirteen y

set_option maxHeartbeats 1000000 in
theorem daysBeforeYear_succ (y : Nat) (hy : 1 ≤ y) :
    daysBeforeYear (y + 1) = daysBeforeYear y + daysInYear y := by
  obtain ⟨n, rfl⟩ : ∃ n, y = n + 1 := ⟨y - 1, by omega⟩
  unfold daysBeforeYear daysInYear
  simp only [Nat.add_sub_cancel]
  by_cases h : isLeap (n + 1)
  · have h4 := (isLeap_iff (n + 1)).mp h
    rw [if_pos h]
    omega
  · have h4 : ¬ ((n + 1) % 4 = 0 ∧ ((n + 1) % 100 ≠ 0 ∨ (n + 1) % 400 = 0)) :=
      fun hc => h ((isLeap_iff (n + 1)).mpr hc)
    rw [if_neg h]
    omega

theorem daysBeforeYear_le_succ (y : Nat) :
    daysBeforeYear y ≤ daysBeforeYear (y + 1) := by
  unfold daysBeforeYear
  omega

theorem daysBeforeYear_mono {y y' : Nat} (h : y ≤ y') :
    daysBeforeYear y ≤ daysBeforeYear y' := by
  induction y' with
  | zero =>
    have : y = 0 := Nat.le_zero.mp h
    subst this
    exact Nat.le_refl _
  | succ k ih =>
    rcases Nat.lt_succ_iff_lt_or_eq.mp (Nat.lt_succ_of_le h) with h1 | h1
    · exact Nat.le_trans (ih (Nat.lt_succ_iff.mp h1)) (daysBeforeYear_le_succ k)
    · subst h1
      exact Nat.le_refl _

/-- Validity of a `Date`, unpacked into arithmetic facts. -/
theorem isValid_unpack {d : Date} (h : d.isValid = true) :
    1 ≤ d.year ∧ d.year ≤ 9999 ∧ 1 ≤ d.month ∧ d.month ≤ 12 ∧
      1 ≤ d.day ∧ d.day ≤ daysInMonth d.year d.month := by
  simp only [Date.isValid, Bool.and_eq_true, decide_eq_true_eq] at h
  exact ⟨h.1.1.1.1.1, h.1.1.1.1.2, h.1.1.1.2, h.1.1.2, h.1.2, h.2⟩

theorem dateLt_false_unpack {a b : Date} (h : dateLt b a = false) :
    a.year < b.year ∨
      (a.year = b.year ∧
        (a.month < b.month ∨ (a.month = b.month ∧ a.day ≤ b.day))) := by
  simp only [dateLt, Bool.or_eq_false_iff, Bool.and_eq_false_iff,
    decide_eq_false_iff_not, Nat.not_lt, beq_eq_false_iff_ne, ne_eq,
    beq_iff_eq] at h
  omega

/-- For valid dates, the CPython field-lexicographic order agrees with the
ordinal order: this is what makes the inclusive span of a non-inverted
range at least one day. -/
theorem toOrdinal_mono {a b : Date} (ha : a.isValid = true)
    (hb : b.isValid = true) (hlex : dateLt b a = false) :
    toOrdinal a ≤ toOrdinal b := by
  obtain ⟨hy1, _, hm1, hm12, hd1, hdm⟩ := isValid_unpack ha
  obtain ⟨hy1b, _, hm1b, hm12b, hd1b, hdmb⟩ := isValid_unpack hb
  unfold toOrdinal
  rcases dateLt_false_unpack hlex with hy | ⟨hy, hm⟩
  · -- strictly earlier year: bound the whole year-a contribution
    have h1 : daysBeforeMonth a.year a.month + a.day ≤ daysInYear a.year :=
      month_contribution_le a.year a.month a.day hm12 hdm
    have h2 : daysBeforeYear (a.year + 1) =
        daysBeforeYear a.year + daysInYear a.year :=
      daysBeforeYear_succ a.year hy1
    have h3 : daysBeforeYear (a.year + 1) ≤ daysBeforeYear b.year :=
      daysBeforeYear_mono hy
    have h4 : 0 ≤ daysBeforeMonth b.year b.month := Nat.zero_le _
    omega
  · rw [hy]
    rcases hm with hm | ⟨hm, hd⟩
    · -- same year, strictly earlier month
      have h1 : daysBeforeMonth b.year a.month + a.day ≤
          daysBeforeMonth b.year (a.month + 1) := by
        have : daysBeforeMonth b.year (a.month + 1) =
            daysBeforeMonth b.year a.month + daysInMonth b.year a.month := rfl
        rw [hy] at hdm
        omega
      have h2 : daysBeforeMonth b.year (a.month + 1) ≤
          daysBeforeMonth b.year b.month :=
        daysBeforeMonth_le b.year (by omega)
      omega
    · -- same year and month
      rw [hm]
      omega

/- ───────────── inversion lemmas for the operations ───────────── -/

theorem count_days_ok {s e : Date} {days : Int}
    (h : count_days s e = .ok days) :
    s.isValid = true ∧ e.isValid = true ∧ dateLt e s = false ∧
      days = (toOrdinal e : Int) - (toOrdinal s : Int) + 1 := by
  unfold count_days parse_date at h
  by_cases hs : s.isValid
  · rw [if_pos hs] at h
    dsimp only at h
    by_cases he : e.isValid
    · rw [if_pos he] at h
      dsimp only at h
      by_cases hlt : dateLt e s
      · rw [if_pos hlt] at h
        exact absurd h (by simp)
      · rw [if_neg hlt] at h
        refine ⟨hs, he, by simpa using hlt, ?_⟩
        simpa using h.symm
    · rw [if_neg he] at h
      dsimp only at h
      exact absurd h (by simp)
  · rw [if_neg hs] at h
    dsimp only at h
    exact absurd h (by simp)

theorem count_days_ok_of {s e : Date} (hs : s.isValid = true)
    (he : e.isValid = true) (hlt : dateLt e s = false) :
    count_days s e = .ok ((toOrdinal e : Int) - (toOrdinal s : Int) + 1) := by
  unfold count_days parse_date
  rw [if_pos hs, if_pos he]
  dsimp only
  rw [if_neg (by simp [hlt])]

/-- Everything a successful `create_leave` implies: the four checks
passed, the record has the shape `create_leave` builds, and the new state
appends it under the freshly formatted id. -/
theorem create_leave_ok {db db' : DB} {eid lt rs : String}
    {sd ed : Date} {r : LeaveRecord}
    (h : create_leave db eid lt sd ed rs = (.ok r, db')) :
    ∃ emp days,
      dictGet db.employees (pyUpper eid) = some emp ∧
      VALID_LEAVE_TYPES.contains (pyLower lt) = true ∧
      count_days sd ed = .ok days ∧
      ¬ days > (dictGet emp.leave_balance (pyLower lt)).getD 0 ∧
      r = { leave_id := leaveIdString db.leave_counter
            employee_id := pyUpper eid
            employee_name := emp.name
            leave_type := pyLower lt
            start_date := sd
            end_date := ed
            days := days
            reason := rs
            status := "pending"
            rejection_reason := none } ∧
      db' = { db with
                leave_counter := db.leave_counter + 1
                leaves := dictSet db.leaves (leaveIdString db.leave_counter) r } := by
  unfold create_leave at h
  cases hemp : dictGet db.employees (pyUpper eid) with
  | none =>
    rw [hemp] at h
    dsimp only at h
    rw [Prod.mk.injEq] at h
    exact absurd h.1 (by simp)
  | some emp =>
    rw [hemp] at h
    dsimp only at h
    by_cases hvt : VALID_LEAVE_TYPES.contains (pyLower lt)
    · rw [if_neg (fun hn => hn hvt)] at h
      cases hcd : count_days sd ed with
      | error e0 =>
        rw [hcd] at h
        dsimp only at h
        rw [Prod.mk.injEq] at h
        exact absurd h.1 (by simp)
      | ok days =>
        rw [hcd] at h
        dsimp only at h
        by_cases hbal : days > (dictGet emp.leave_balance (pyLower lt)).getD 0
        · rw [if_pos hbal] at h
          rw [Prod.mk.injEq] at h
          exact absurd h.1 (by simp)
        · rw [if_neg hbal] at h
          rw [Prod.mk.injEq] at h
          obtain ⟨hr, hdb⟩ := h
          simp only [Except.ok.injEq] at hr
          exact ⟨emp, days, rfl, hvt, rfl, hbal, hr.symm,
            by rw [← hdb, hr]⟩
    · rw [if_pos hvt] at h
      rw [Prod.mk.injEq] at h
      exact absurd h.1 (by simp)

/-- Everything a successful `approve_leave_record` implies: the record
was pending, both `KeyError`-prone lookups succeeded, the record is
re-stored as approved and its days are debited. -/
theorem approve_leave_record_ok {db db1 : DB} {lid : String}
    {r1 : LeaveRecord}
    (h : approve_leave_record db lid = (.ok r1, db1)) :
    ∃ record emp bal,
      dictGet db.leaves (pyUpper lid) = some record ∧
      record.status = "pending" ∧
      dictGet db.employees record.employee_id = some emp ∧
      dictGet emp.leave_balance record.leave_type = some bal ∧
      r1 = { record with status := "approved" } ∧
      db1 = { db with
                employees :=
                  dictSet db.employees record.employee_id
                    { emp with
                        leave_balance :=
                          dictSet emp.leave_balance record.leave_type
                            (bal - record.days) }
                leaves := dictSet db.leaves (pyUpper lid) r1 } := by
  unfold approve_leave_record at h
  cases hrec : dictGet db.leaves (pyUpper lid) with
  | none =>
    rw [hrec] at h
    dsimp only at h
    rw [Prod.mk.injEq] at h
    exact absurd h.1 (by simp)
  | some record =>
    rw [hrec] at h
    dsimp only at h
    by_cases hst : record.status = "pending"
    · rw [if_neg (by simp [hst])] at h
      cases hemp : dictGet db.employees record.employee_id with
      | none =>
        rw [hemp] at h
        dsimp only at h
        rw [Prod.mk.injEq] at h
        exact absurd h.1 (by simp)
      | some emp =>
        rw [hemp] at h
        dsimp only at h
        cases hbal : dictGet emp.leave_balance record.leave_type with
        | none =>
          rw [hbal] at h
          dsimp only at h
          rw [Prod.mk.injEq] at h
          exact absurd h.1 (by simp)
        | some bal =>
          rw [hbal] at h
          dsimp only at h
          rw [Prod.mk.injEq] at h
          obtain ⟨hr, hdb⟩ := h
          simp only [Except.ok.injEq] at hr
          exact ⟨record, emp, bal, rfl, hst, hemp, hbal, hr.symm,
            by rw [← hdb, hr]⟩
    · rw [if_pos (by simp [hst])] at h
      rw [Prod.mk.injEq] at h
      exact absurd h.1 (by simp)

/- ───────────── forward evaluation of the operations ───────────── -/

theorem create_leave_no_employee {db : DB} {eid lt rs : String}
    {sd ed : Date} (hemp : dictGet db.employees (pyUpper eid) = none) :
    create_leave db eid lt sd ed rs = (.error (.employeeNotFound eid), db) := by
  unfold create_leave
  rw [hemp]

theorem create_leave_bad_type {db : DB} {eid lt rs : String}
    {sd ed : Date} {emp : Employee}
    (hemp : dictGet db.employees (pyUpper eid) = some emp)
    (hvt : VALID_LEAVE_TYPES.contains (pyLower lt) = false) :
    create_leave db eid lt sd ed rs =
      (.error (.invalidLeaveType (pyLower lt)), db) := by
  unfold create_leave
  rw [hemp]
  dsimp only
  rw [if_pos (show ¬ VALID_LEAVE_TYPES.contains (pyLower lt) = true by
    rw [hvt]; exact Bool.false_ne_true)]

theorem create_leave_bad_dates {db : DB} {eid lt rs : String}
    {sd ed : Date} {emp : Employee} {e0 : LeaveError}
    (hemp : dictGet db.employees (pyUpper eid) = some emp)
    (hvt : VALID_LEAVE_TYPES.contains (pyLower lt) = true)
    (hcd : count_days sd ed = .error e0) :
    create_leave db eid lt sd ed rs = (.error e0, db) := by
  unfold create_leave
  rw [hemp]
  dsimp only
  rw [if_neg (fun hn => hn hvt), hcd]

theorem create_leave_insufficient {db : DB} {eid lt rs : String}
    {sd ed : Date} {emp : Employee} {days : Int}
    (hemp : dictGet db.employees (pyUpper eid) = some emp)
    (hvt : VALID_LEAVE_TYPES.contains (pyLower lt) = true)
    (hcd : count_days sd ed = .ok days)
    (hbal : days > (dictGet emp.leave_balance (pyLower lt)).getD 0) :
    create_leave db eid lt sd ed rs =
      (.error (.insufficientBalance (pyLower lt) days
        ((dictGet emp.leave_balance (pyLower lt)).getD 0)), db) := by
  unfold create_leave
  rw [hemp]
  dsimp only
  rw [if_neg (fun hn => hn hvt), hcd]
  dsimp only
  rw [if_pos hbal]

theorem count_days_bad_range {sd ed : Date} (hs : sd.isValid = true)
    (he : ed.isValid = true) (hlt : dateLt ed sd = true) :
    count_days sd ed = .error .invalidDateRange := by
  unfold count_days parse_date
  rw [if_pos hs, if_pos he]
  dsimp only
  rw [if_pos hlt]

theorem approve_not_pending {db : DB} {lid : String} {record : LeaveRecord}
    (hrec : dictGet db.leaves (pyUpper lid) = some record)
    (hst : record.status ≠ "pending") :
    approve_leave_record db lid =
      (.error (.invalidTransition lid record.status), db) := by
  unfold approve_leave_record
  rw [hrec]
  dsimp only
  rw [if_pos hst]

theorem reject_not_pending {db : DB} {lid rr : String} {record : LeaveRecord}
    (hrec : dictGet db.leaves (pyUpper lid) = some record)
    (hst : record.status ≠ "pending") :
    reject_leave_record db lid rr =
      (.error (.invalidTransition lid record.status), db) := by
  unfold reject_leave_record
  rw [hrec]
  dsimp only
  rw [if_pos hst]

theorem cancel_not_cancellable {db : DB} {lid : String} {record : LeaveRecord}
    (hrec : dictGet db.leaves (pyUpper lid) = some record)
    (hst : record.status ≠ "pending" ∧ record.status ≠ "approved") :
    cancel_leave_record db lid =
      (.error (.invalidTransition lid record.status), db) := by
  unfold cancel_leave_record
  rw [hrec]
  dsimp only
  rw [if_pos hst]

theorem approve_pending_ok {db : DB} {lid : String}
    {record : LeaveRecord} {emp : Employee} {bal : Int}
    (hrec : dictGet db.leaves (pyUpper lid) = some record)
    (hst : record.status = "pending")
    (hemp : dictGet db.employees record.employee_id = some emp)
    (hbal : dictGet emp.leave_balance record.leave_type = some bal) :
    approve_leave_record db lid =
      (.ok { record with status := "approved" },
       { db with
           employees :=
             dictSet db.employees record.employee_id
               { emp with
                   leave_balance :=
                     dictSet emp.leave_balance record.leave_type
                       (bal - record.days) }
           leaves := dictSet db.leaves (pyUpper lid)
             { record with status := "approved" } }) := by
  unfold approve_leave_record
  rw [hrec]
  dsimp only
  rw [if_neg (by simp [hst]), hemp]
  dsimp only
  rw [hbal]

theorem reject_pending_ok {db : DB} {lid rr : String} {record : LeaveRecord}
    (hrec : dictGet db.leaves (pyUpper lid) = some record)
    (hst : record.status = "pending") :
    reject_leave_record db lid rr =
      (.ok { record with status := "rejected", rejection_reason := some rr },
       { db with
           leaves := dictSet db.leaves (pyUpper lid)
             { record with status := "rejected", rejection_reason := some rr } }) := by
  unfold reject_leave_record
  rw [hrec]
  dsimp only
  rw [if_neg (by simp [hst])]

theorem cancel_pending_ok {db : DB} {lid : String} {record : LeaveRecord}
    (hrec : dictGet db.leaves (pyUpper lid) = some record)
    (hst : record.status = "pending") :
    cancel_leave_record db lid =
      (.ok { record with status := "cancelled" },
       { db with
           leaves := dictSet db.leaves (pyUpper lid)
             { record with status := "cancelled" } }) := by
  unfold cancel_leave_record
  rw [hrec]
  dsimp only
  rw [if_neg (by simp [hst]), if_neg (by simp [hst])]

theorem cancel_approved_ok {db : DB} {lid : String}
    {record : LeaveRecord} {emp : Employee} {bal : Int}
    (hrec : dictGet db.leaves (pyUpper lid) = some record)
    (hst : record.status = "approved")
    (hemp : dictGet db.employees record.employee_id = some emp)
    (hbal : dictGet emp.leave_balance record.leave_type = some bal) :
    cancel_leave_record db lid =
      (.ok { record with status := "cancelled" },
       { db with
           employees :=
             dictSet db.employees record.employee_id
               { emp with
                   leave_balance :=
                     dictSet emp.leave_balance record.leave_type
                       (bal + record.days) }
           leaves := dictSet db.leaves (pyUpper lid)
             { record with status := "cancelled" } }) := by
  unfold cancel_leave_record
  rw [hrec]
  dsimp only
  rw [if_neg (by simp [hst]), if_pos hst, hemp]
  dsimp only
  rw [hbal]

/- ───────────── error paths leave the state unchanged ───────────── -/

theorem create_leave_error_state {db : DB} {eid lt rs : String}
    {sd ed : Date} {e : LeaveError}
    (h : (create_leave db eid lt sd ed rs).1 = .error e) :
    (create_leave db eid lt sd ed rs).2 = db := by
  unfold create_leave at h ⊢
  cases hemp : dictGet db.employees (pyUpper eid) with
  | none => rfl
  | some emp =>
    rw [hemp] at h
    dsimp only at h ⊢
    by_cases hvt : VALID_LEAVE_TYPES.contains (pyLower lt)
    · rw [if_neg (fun hn => hn hvt)] at h ⊢
      cases hcd : count_days sd ed with
      | error e0 => rfl
      | ok days =>
        rw [hcd] at h
        dsimp only at h ⊢
        by_cases hbal : days > (dictGet emp.leave_balance (pyLower lt)).getD 0
        · rw [if_pos hbal]
        · rw [if_neg hbal] at h
          exact absurd h (by simp)
    · rw [if_pos hvt]

theorem approve_error_state {db : DB} {lid : String} {e : LeaveError}
    (h : (approve_leave_record db lid).1 = .error e) :
    (approve_leave_record db lid).2 = db := by
  unfold approve_leave_record at h ⊢
  cases hrec : dictGet db.leaves (pyUpper lid) with
  | none => rfl
  | some record =>
    rw [hrec] at h
    dsimp only at h ⊢
    by_cases hst : record.status = "pending"
    · rw [if_neg (by simp [hst])] at h ⊢
      cases hemp : dictGet db.employees record.employee_id with
      | none => rfl
      | some emp =>
        rw [hemp] at h
        dsimp only at h ⊢
        cases hbal : dictGet emp.leave_balance record.leave_type with
        | none => rfl
        | some bal =>
          rw [hbal] at h
          dsimp only at h
          exact absurd h (by simp)
    · rw [if_pos hst]

theorem reject_error_state {db : DB} {lid rr : String} {e : LeaveError}
    (h : (reject_leave_record db lid rr).1 = .error e) :
    (reject_leave_record db lid rr).2 = db := by
  unfold reject_leave_record at h ⊢
  cases hrec : dictGet db.leaves (pyUpper lid) with
  | none => rfl
  | some record =>
    rw [hrec] at h
    dsimp only at h ⊢
    by_cases hst : record.status = "pending"
    · rw [if_neg (by simp [hst])] at h
      dsimp only at h
      exact absurd h (by simp)
    · rw [if_pos hst]

theorem cancel_error_state {db : DB} {lid : String} {e : LeaveError}
    (h : (cancel_leave_record db lid).1 = .error e) :
    (cancel_leave_record db lid).2 = db := by
  unfold cancel_leave_record at h ⊢
  cases hrec : dictGet db.leaves (pyUpper lid) with
  | none => rfl
  | some record =>
    rw [hrec] at h
    dsimp only at h ⊢
    by_cases hst : record.status ≠ "pending" ∧ record.status ≠ "approved"
    · rw [if_pos hst]
    · rw [if_neg hst] at h ⊢
      by_cases hap : record.status = "approved"
      · rw [if_pos hap] at h ⊢
        cases hemp : dictGet db.employees record.employee_id with
        | none => rfl
        | some emp =>
          rw [hemp] at h
          dsimp only at h ⊢
          cases hbal : dictGet emp.leave_balance record.leave_type with
          | none => rfl
          | some bal =>
            rw [hbal] at h
            dsimp only at h
            exact absurd h (by simp)
      · rw [if_neg hap] at h
        dsimp only at h
        exact absurd h (by simp)

/- ───────────── membership in an updated dict ───────────── -/

theorem mem_dictSet {α : Type} (d : List (String × α)) (k : String)
    (v : α) : ∀ p ∈ dictSet d k v, p ∈ d ∨ p = (k, v) := by
  induction d with
  | nil =>
    intro p hp
    simp only [dictSet, List.mem_singleton] at hp
    exact Or.inr hp
  | cons q rest ih =>
    intro p hp
    simp only [dictSet] at hp
    by_cases h0 : q.1 = k
    · rw [if_pos h0] at hp
      rcases List.mem_cons.mp hp with h | h
      · subst h0
        exact Or.inr (by rw [h])
      · exact Or.inl (List.mem_cons_of_mem q h)
    · rw [if_neg h0] at hp
      rcases List.mem_cons.mp hp with h | h
      · exact Or.inl (h ▸ List.mem_cons_self q rest)
      · rcases ih p h with h1 | h1
        · exact Or.inl (List.mem_cons_of_mem q h1)
        · exact Or.inr h1

/-- Invariant: every id in the leave store was formatted from a counter
value smaller than the current one. -/
def LeaveIdsOk (db : DB) : Prop :=
  ∀ p ∈ db.leaves, ∃ m, m < db.leave_counter ∧ p.1 = leaveIdString m

theorem initDB_leave_ids_ok : LeaveIdsOk initDB := by
  intro p hp
  simp [initDB] at hp

/- ───────────── a concrete run of the system ───────────── -/

/-- 2026-03-01. -/
def marStart : Date := ⟨2026, 3, 1⟩

/-- 2026-03-15. -/
def marEnd : Date := ⟨2026, 3, 15⟩

/-- The seeded employee record of E001. -/
def aliceEmp : Employee :=
  { id := "E001", name := "Alice Johnson",
    leave_balance :=
      [("casual", 10), ("sick", 12), ("annual", 20),
       ("maternity", 0), ("paternity", 5)] }

/-- The pending record L001 built by the first submission below. -/
def rec1 : LeaveRecord :=
  { leave_id := "L001", employee_id := "E001",
    employee_name := "Alice Johnson", leave_type := "annual",
    start_date := marStart, end_date := marEnd, days := 15,
    reason := "trip one", status := "pending", rejection_reason := none }

/-- State after E001 submits a 15-day annual request (L001);
the annual balance of 20 is checked but not debited. -/
def dbOne : DB :=
  (create_leave initDB "E001" "annual" marStart marEnd "trip one").2

/-- State after E001 submits a second 15-day annual request (L002),
validated against the still-undebited balance of 20. -/
def dbTwo : DB :=
  (create_leave dbOne "E001" "annual" marStart marEnd "trip two").2

/-- State after L001 is approved: annual balance 20 - 15 = 5. -/
def dbThree : DB := (approve_leave_record dbTwo "L001").2

/-- State after L002 is approved as well: annual balance 5 - 15 = -10. -/
def dbFour : DB := (approve_leave_record dbThree "L002").2

/- ───────────── the claims ───────────── -/

/-- Claim C1 counterexample: the balance invariant fails on the code.
Two 15-day annual requests are submitted while E001's annual balance is
20 (each submission alone is covered), then both are approved.  The
second `approve_leave_record` does not re-check the balance: it succeeds
(no `InsufficientBalance`), and the resulting annual balance is -10,
which is negative. -/
theorem claim_C1_counterexample :
    (approve_leave_record dbThree "L002").1 =
      .ok { leave_id := "L002", employee_id := "E001",
            employee_name := "Alice Johnson", leave_type := "annual",
            start_date := marStart, end_date := marEnd, days := 15,
            reason := "trip two", status := "approved",
            rejection_reason := none } ∧
    get_balance dbFour "E001" "annual" = -10 :=
  ⟨rfl, rfl⟩

/-- Claim C1 (amended): only submission guards the ledger.  A submission
whose computed day count exceeds the current balance for the (lowercased)
leave type fails with the `InsufficientBalance` condition carrying the
requested and available amounts, and leaves the state unchanged.
Approval itself debits unconditionally, so a sequence of approvals of
requests that were each validated against the same undebited balance can
drive the balance negative (see the counterexample). -/
theorem claim_C1 {db : DB} {eid lt rs : String} {sd ed : Date}
    {emp : Employee} {days : Int}
    (hemp : dictGet db.employees (pyUpper eid) = some emp)
    (hvt : VALID_LEAVE_TYPES.contains (pyLower lt) = true)
    (hcd : count_days sd ed = .ok days)
    (hbal : days > (dictGet emp.leave_balance (pyLower lt)).getD 0) :
    create_leave db eid lt sd ed rs =
      (.error (.insufficientBalance (pyLower lt) days
        ((dictGet emp.leave_balance (pyLower lt)).getD 0)), db) :=
  create_leave_insufficient hemp hvt hcd hbal

/-- Claim C1 witness: a 25-day annual request against E001's balance of
20 fails with `InsufficientBalance (requested 25, available 20)` and the
state is unchanged. -/
theorem claim_C1_witness :
    create_leave initDB "E001" "annual" ⟨2026, 3, 1⟩ ⟨2026, 3, 25⟩ "long" =
      (.error (.insufficientBalance "annual" 25 20), initDB) :=
  @claim_C1 initDB "E001" "annual" "long" ⟨2026, 3, 1⟩ ⟨2026, 3, 25⟩
    aliceEmp 25 rfl rfl rfl (by decide)

/-- Claim C3: approving a request twice debits once.  If the first
`approve_leave_record` succeeds, the balance after it is the old balance
minus the request's days, and the second call on the same id fails with
`InvalidTransition` naming the now-current status `approved` while
leaving the state (and hence the balance) exactly as after the first
call. -/
theorem claim_C3 {db db1 : DB} {lid : String} {r1 : LeaveRecord}
    (h : approve_leave_record db lid = (.ok r1, db1)) :
    get_balance db1 r1.employee_id r1.leave_type =
      get_balance db r1.employee_id r1.leave_type - r1.days ∧
    approve_leave_record db1 lid =
      (.error (.invalidTransition lid "approved"), db1) := by
  obtain ⟨record, emp, bal, hrec, hst, hemp, hbal, hr1, hdb1⟩ :=
    approve_leave_record_ok h
  subst hr1
  subst hdb1
  constructor
  · unfold get_balance
    dsimp only
    rw [dictGet_dictSet_self, hemp]
    dsimp only
    rw [dictGet_dictSet_self, hbal]
    rfl
  · have hne : ("approved" : String) ≠ "pending" := by decide
    exact @approve_not_pending
      ⟨dictSet db.employees record.employee_id
          { emp with
              leave_balance :=
                dictSet emp.leave_balance record.leave_type
                  (bal - record.days) },
        dictSet db.leaves (pyUpper lid) { record with status := "approved" },
        db.leave_counter⟩
      lid { record with status := "approved" }
      (dictGet_dictSet_self _ _ _) hne

/-- Claim C3 witness: approving L001 twice from the two-pending state.
The first call debits 15 (balance 20 becomes 5), the second fails with
`InvalidTransition` and leaves the state as after the first. -/
theorem claim_C3_witness :
    get_balance dbThree "E001" "annual" =
      get_balance dbTwo "E001" "annual" - 15 ∧
    approve_leave_record dbThree "L001" =
      (.error (.invalidTransition "L001" "approved"), dbThree) :=
  claim_C3 (show approve_leave_record dbTwo "L001" =
    (.ok { rec1 with status := "approved" }, dbThree) from rfl)

/-- Claim C4: approving and then cancelling a pending request restores
the employee's balance for that leave type to its exact pre-approval
value: the cancel credits back precisely the days the approval debited. -/
theorem claim_C4 {db db1 : DB} {lid : String} {r1 : LeaveRecord}
    (h : approve_leave_record db lid = (.ok r1, db1)) :
    ∃ r2 db2, cancel_leave_record db1 lid = (.ok r2, db2) ∧
      get_balance db2 r1.employee_id r1.leave_type =
        get_balance db r1.employee_id r1.leave_type := by
  obtain ⟨record, emp, bal, hrec, hst, hemp, hbal, hr1, hdb1⟩ :=
    approve_leave_record_ok h
  subst hr1
  subst hdb1
  have hc := @cancel_approved_ok
    ⟨dictSet db.employees record.employee_id
        { emp with
            leave_balance :=
              dictSet emp.leave_balance record.leave_type
                (bal - record.days) },
      dictSet db.leaves (pyUpper lid) { record with status := "approved" },
      db.leave_counter⟩
    lid { record with status := "approved" }
    { emp with
        leave_balance :=
          dictSet emp.leave_balance record.leave_type (bal - record.days) }
    (bal - record.days)
    (dictGet_dictSet_self _ _ _) rfl (dictGet_dictSet_self _ _ _)
    (dictGet_dictSet_self _ _ _)
  refine ⟨_, _, hc, ?_⟩
  unfold get_balance
  dsimp only
  rw [dictGet_dictSet_self, hemp]
  dsimp only
  rw [dictGet_dictSet_self, hbal]
  dsimp only [Option.getD]
  omega

/-- Claim C4 witness: cancelling the approved L001 restores E001's annual
balance to its value before the approval. -/
theorem claim_C4_witness :
    ∃ r2 db2, cancel_leave_record dbThree "L001" = (.ok r2, db2) ∧
      get_balance db2 "E001" "annual" = get_balance dbTwo "E001" "annual" :=
  claim_C4 (show approve_leave_record dbTwo "L001" =
    (.ok { rec1 with status := "approved" }, dbThree) from rfl)

/-- Claim C5: atomicity.  Whenever `create_leave` fails (unknown
employee, invalid leave type, bad dates, insufficient balance) the state
it returns is exactly the input state: no record is created, no counter
is bumped, no balance changes.  Whenever `approve_leave_record` fails, no
debit occurs and no record changes. -/
theorem claim_C5 (db : DB) (eid lt rs lid : String) (sd ed : Date) :
    (∀ e, (create_leave db eid lt sd ed rs).1 = .error e →
      (create_leave db eid lt sd ed rs).2 = db) ∧
    (∀ e, (approve_leave_record db lid).1 = .error e →
      (approve_leave_record db lid).2 = db) :=
  ⟨fun _ h => create_leave_error_state h,
   fun _ h => approve_error_state h⟩

/-- Claim C5 witness: a submission for an unknown employee and an
approval of an unknown id both fail and both leave `initDB` unchanged. -/
theorem claim_C5_witness :
    (create_leave initDB "E999" "annual" marStart marEnd "x").1 =
      .error (.employeeNotFound "E999") ∧
    (create_leave initDB "E999" "annual" marStart marEnd "x").2 = initDB ∧
    (approve_leave_record initDB "L001").1 = .error (.leaveNotFound "L001") ∧
    (approve_leave_record initDB "L001").2 = initDB :=
  ⟨rfl,
   (claim_C5 initDB "E999" "annual" "x" "L001" marStart marEnd).1
     (.employeeNotFound "E999") rfl,
   rfl,
   (claim_C5 initDB "E999" "annual" "x" "L001" marStart marEnd).2
     (.leaveNotFound "L001") rfl⟩

/-- Claim C2: the transition table is exactly as specified.  For a stored
request (with its employee and balance entry present, so that the debit
and credit dict indexings cannot raise `KeyError`): from `pending` the
events approve, reject and cancel all succeed; approve and reject on any
non-`pending` status fail with `InvalidTransition` naming the current
status and leave the state untouched; cancel succeeds from `approved`;
and cancel from any status other than `pending`/`approved` fails with
`InvalidTransition` naming the current status and leaves the state
untouched. -/
theorem claim_C2 {db : DB} {lid : String} (rr : String)
    {record : LeaveRecord} {emp : Employee} {bal : Int}
    (hrec : get_leave db lid = some record)
    (hemp : dictGet db.employees record.employee_id = some emp)
    (hbal : dictGet emp.leave_balance record.leave_type = some bal) :
    (record.status = "pending" →
      (approve_leave_record db lid).1 =
        .ok { record with status := "approved" } ∧
      (reject_leave_record db lid rr).1 =
        .ok { record with
              status := "rejected"
              rejection_reason := some rr } ∧
      (cancel_leave_record db lid).1 =
        .ok { record with status := "cancelled" }) ∧
    (record.status ≠ "pending" →
      approve_leave_record db lid =
        (.error (.invalidTransition lid record.status), db) ∧
      reject_leave_record db lid rr =
        (.error (.invalidTransition lid record.status), db)) ∧
    (record.status = "approved" →
      (cancel_leave_record db lid).1 =
        .ok { record with status := "cancelled" }) ∧
    (record.status ≠ "pending" → record.status ≠ "approved" →
      cancel_leave_record db lid =
        (.error (.invalidTransition lid record.status), db)) := by
  refine ⟨?_, ?_, ?_, ?_⟩
  · intro hst
    refine ⟨?_, ?_, ?_⟩
    · rw [approve_pending_ok hrec hst hemp hbal]
    · rw [reject_pending_ok hrec hst]
    · rw [cancel_pending_ok hrec hst]
  · intro hst
    exact ⟨approve_not_pending hrec hst, reject_not_pending hrec hst⟩
  · intro hap
    rw [cancel_approved_ok hrec hap hemp hbal]
  · intro h1 h2
    exact cancel_not_cancellable hrec ⟨h1, h2⟩

/-- Claim C2 witness: the pending record L001 in `dbOne` can be
approved, rejected and cancelled; after rejecting it, neither approve
nor reject nor cancel is possible on it, each failing with
`InvalidTransition "rejected"`. -/
theorem claim_C2_witness :
    ((approve_leave_record dbOne "L001").1 =
        .ok { rec1 with status := "approved" } ∧
      (reject_leave_record dbOne "L001" "deadline").1 =
        .ok { rec1 with
              status := "rejected"
              rejection_reason := some "deadline" } ∧
      (cancel_leave_record dbOne "L001").1 =
        .ok { rec1 with status := "cancelled" }) ∧
    (approve_leave_record (reject_leave_record dbOne "L001" "deadline").2
        "L001" =
      (.error (.invalidTransition "L001" "rejected"),
       (reject_leave_record dbOne "L001" "deadline").2) ∧
     cancel_leave_record (reject_leave_record dbOne "L001" "deadline").2
        "L001" =
      (.error (.invalidTransition "L001" "rejected"),
       (reject_leave_record dbOne "L001" "deadline").2)) :=
  ⟨(claim_C2 "deadline"
      (show get_leave dbOne "L001" = some rec1 from rfl) rfl rfl).1 rfl,
   ((claim_C2 "deadline"
      (show get_leave (reject_leave_record dbOne "L001" "deadline").2 "L001" =
        some { rec1 with
               status := "rejected"
               rejection_reason := some "deadline" } from rfl) rfl rfl).2.1
      (by decide)).1,
   ((claim_C2 "deadline"
      (show get_leave (reject_leave_record dbOne "L001" "deadline").2 "L001" =
        some { rec1 with
               status := "rejected"
               rejection_reason := some "deadline" } from rfl) rfl rfl).2.2.2
      (by decide) (by decide))⟩

/-- Claim C6: submission validates in source order and stops at the
first failing check: (1) unknown employee, (2) lowercased leave type not
in the fixed enumeration, (3) inverted date range, (4) day count above
the available balance; and the four failure conditions are pairwise
distinct values of `LeaveError`, whatever data they carry. -/
theorem claim_C6 (db : DB) (eid lt rs : String) (sd ed : Date) :
    (dictGet db.employees (pyUpper eid) = none →
      create_leave db eid lt sd ed rs =
        (.error (.employeeNotFound eid), db)) ∧
    (∀ emp, dictGet db.employees (pyUpper eid) = some emp →
      VALID_LEAVE_TYPES.contains (pyLower lt) = false →
      create_leave db eid lt sd ed rs =
        (.error (.invalidLeaveType (pyLower lt)), db)) ∧
    (∀ emp, dictGet db.employees (pyUpper eid) = some emp →
      VALID_LEAVE_TYPES.contains (pyLower lt) = true →
      sd.isValid = true → ed.isValid = true → dateLt ed sd = true →
      create_leave db eid lt sd ed rs =
        (.error .invalidDateRange, db)) ∧
    (∀ emp days, dictGet db.employees (pyUpper eid) = some emp →
      VALID_LEAVE_TYPES.contains (pyLower lt) = true →
      count_days sd ed = .ok days →
      days > (dictGet emp.leave_balance (pyLower lt)).getD 0 →
      create_leave db eid lt sd ed rs =
        (.error (.insufficientBalance (pyLower lt) days
          ((dictGet emp.leave_balance (pyLower lt)).getD 0)), db)) ∧
    (∀ (s1 s2 s3 : String) (i1 i2 : Int),
      LeaveError.employeeNotFound s1 ≠ .invalidLeaveType s2 ∧
      LeaveError.employeeNotFound s1 ≠ .invalidDateRange ∧
      LeaveError.employeeNotFound s1 ≠ .insufficientBalance s3 i1 i2 ∧
      LeaveError.invalidLeaveType s2 ≠ .invalidDateRange ∧
      LeaveError.invalidLeaveType s2 ≠ .insufficientBalance s3 i1 i2 ∧
      LeaveError.invalidDateRange ≠ .insufficientBalance s3 i1 i2) := by
  refine ⟨?_, ?_, ?_, ?_, ?_⟩
  · intro hemp
    exact create_leave_no_employee hemp
  · intro emp hemp hvt
    exact create_leave_bad_type hemp hvt
  · intro emp hemp hvt hs he hlt
    exact create_leave_bad_dates hemp hvt (count_days_bad_range hs he hlt)
  · intro emp days hemp hvt hcd hbal
    exact create_leave_insufficient hemp hvt hcd hbal
  · intro s1 s2 s3 i1 i2
    refine ⟨?_, ?_, ?_, ?_, ?_, ?_⟩ <;> intro hco <;> exact nomatch hco

/-- Claim C6 witness: the four failure modes at concrete inputs, each
stopping at its own check with its own reason and leaving `initDB`
unchanged. -/
theorem claim_C6_witness :
    create_leave initDB "E006" "annual" marStart marEnd "x" =
      (.error (.employeeNotFound "E006"), initDB) ∧
    create_leave initDB "E001" "holiday" marStart marEnd "x" =
      (.error (.invalidLeaveType "holiday"), initDB) ∧
    create_leave initDB "E001" "annual" marEnd marStart "x" =
      (.error .invalidDateRange, initDB) ∧
    create_leave initDB "E001" "annual" ⟨2026, 3, 1⟩ ⟨2026, 3, 25⟩ "x" =
      (.error (.insufficientBalance "annual" 25 20), initDB) :=
  ⟨(claim_C6 initDB "E006" "annual" "x" marStart marEnd).1 rfl,
   (claim_C6 initDB "E001" "holiday" "x" marStart marEnd).2.1
     aliceEmp rfl rfl,
   (claim_C6 initDB "E001" "annual" "x" marEnd marStart).2.2.1
     aliceEmp rfl rfl rfl rfl rfl,
   (claim_C6 initDB "E001" "annual" "x" ⟨2026, 3, 1⟩ ⟨2026, 3, 25⟩).2.2.2.1
     aliceEmp 25 rfl rfl rfl (by decide)⟩

/-- Claim C7: for every successfully submitted request, the recorded
`days` is the inclusive ordinal span `(endDate - startDate) + 1` of its
two dates, it is at least 1 (inverted spans were rejected, and for valid
dates the field-lexicographic order agrees with the ordinal order), and
a same-day request records exactly 1 day. -/
theorem claim_C7 {db db' : DB} {eid lt rs : String} {sd ed : Date}
    {r : LeaveRecord}
    (h : create_leave db eid lt sd ed rs = (.ok r, db')) :
    r.days = (toOrdinal ed : Int) - (toOrdinal sd : Int) + 1 ∧
    1 ≤ r.days ∧ (sd = ed → r.days = 1) := by
  obtain ⟨emp, days, hemp, hvt, hcd, hbal, hr, hdb⟩ := create_leave_ok h
  obtain ⟨hs, he, hlt, hdays⟩ := count_days_ok hcd
  subst hr
  dsimp only
  have hmono : toOrdinal sd ≤ toOrdinal ed := toOrdinal_mono hs he hlt
  refine ⟨hdays, by omega, ?_⟩
  intro hse
  subst hse
  omega

/-- Claim C7 witness: a request for 2026-03-10 → 2026-03-12 records
3 days and a same-day request for 2026-03-10 records 1 day. -/
theorem claim_C7_witness :
    ((3 : Int) = (toOrdinal ⟨2026, 3, 12⟩ : Int) -
        (toOrdinal ⟨2026, 3, 10⟩ : Int) + 1 ∧
      (1 : Int) ≤ 3 ∧ ((⟨2026, 3, 10⟩ : Date) = ⟨2026, 3, 12⟩ → (3 : Int) = 1)) ∧
    ((1 : Int) = (toOrdinal ⟨2026, 3, 10⟩ : Int) -
        (toOrdinal ⟨2026, 3, 10⟩ : Int) + 1 ∧
      (1 : Int) ≤ 1 ∧ ((⟨2026, 3, 10⟩ : Date) = ⟨2026, 3, 10⟩ → (1 : Int) = 1)) :=
  ⟨claim_C7 (show create_leave initDB "E001" "annual" ⟨2026, 3, 10⟩
      ⟨2026, 3, 12⟩ "vac" =
    (.ok { leave_id := "L001", employee_id := "E001",
           employee_name := "Alice Johnson", leave_type := "annual",
           start_date := ⟨2026, 3, 10⟩, end_date := ⟨2026, 3, 12⟩,
           days := 3, reason := "vac", status := "pending",
           rejection_reason := none },
     (create_leave initDB "E001" "annual" ⟨2026, 3, 10⟩
        ⟨2026, 3, 12⟩ "vac").2) from rfl),
   claim_C7 (show create_leave initDB "E001" "annual" ⟨2026, 3, 10⟩
      ⟨2026, 3, 10⟩ "day" =
    (.ok { leave_id := "L001", employee_id := "E001",
           employee_name := "Alice Johnson", leave_type := "annual",
           start_date := ⟨2026, 3, 10⟩, end_date := ⟨2026, 3, 10⟩,
           days := 1, reason := "day", status := "pending",
           rejection_reason := none },
     (create_leave initDB "E001" "annual" ⟨2026, 3, 10⟩
        ⟨2026, 3, 10⟩ "day").2) from rfl)⟩

/-- Claim C8: ids are unique, monotone, never reused.  Under the
invariant that every stored id was formatted from an earlier counter
value, a successful submission receives the id formatted (zero-padded,
`L`-prefixed) from the current counter; the counter strictly increases;
every previously assigned id has a strictly smaller sequence number (the
formatting is injective, so the sequence number of an id is well
defined); the new id differs from every stored id; and the invariant is
preserved. -/
theorem claim_C8 {db db' : DB} {eid lt rs : String} {sd ed : Date}
    {r : LeaveRecord}
    (h : create_leave db eid lt sd ed rs = (.ok r, db'))
    (hinv : LeaveIdsOk db) :
    r.leave_id = leaveIdString db.leave_counter ∧
    db'.leave_counter = db.leave_counter + 1 ∧
    (∀ p ∈ db.leaves, ∀ m, p.1 = leaveIdString m → m < db.leave_counter) ∧
    (∀ p ∈ db.leaves, p.1 ≠ r.leave_id) ∧
    LeaveIdsOk db' := by
  obtain ⟨emp, days, hemp, hvt, hcd, hbal, hr, hdb⟩ := create_leave_ok h
  have hrid : r.leave_id = leaveIdString db.leave_counter := by
    rw [hr]
  refine ⟨hrid, by rw [hdb], ?_, ?_, ?_⟩
  · intro p hp m hm
    obtain ⟨m', hm', he⟩ := hinv p hp
    have : m = m' := leaveIdString_injective (hm.symm.trans he)
    omega
  · intro p hp heq
    obtain ⟨m', hm', he⟩ := hinv p hp
    have : m' = db.leave_counter :=
      leaveIdString_injective (he.symm.trans (heq.trans hrid))
    omega
  · intro p hp
    rw [hdb] at hp
    dsimp only at hp
    rcases mem_dictSet _ _ _ p hp with hold | hnew
    · obtain ⟨m', hm', he⟩ := hinv p hold
      exact ⟨m', by rw [hdb]; dsimp only; omega, he⟩
    · refine ⟨db.leave_counter, by rw [hdb]; dsimp only; omega, ?_⟩
      rw [hnew, ← hrid]

/-- Claim C8 witness: the first submission into the empty store gets id
`L001` (the formatting of counter value 1), bumps the counter to 2, and
the invariant holds afterwards; the second submission gets `L002`,
distinct from the stored `L001`. -/
theorem claim_C8_witness :
    (rec1.leave_id = leaveIdString initDB.leave_counter ∧
      dbOne.leave_counter = initDB.leave_counter + 1 ∧
      (∀ p ∈ initDB.leaves, ∀ m, p.1 = leaveIdString m →
        m < initDB.leave_counter) ∧
      (∀ p ∈ initDB.leaves, p.1 ≠ rec1.leave_id) ∧
      LeaveIdsOk dbOne) ∧
    leaveIdString 1 = "L001" ∧ leaveIdString 2 = "L002" :=
  ⟨claim_C8 (show create_leave initDB "E001" "annual" marStart marEnd
      "trip one" = (.ok rec1, dbOne) from rfl) initDB_leave_ids_ok,
   rfl, rfl⟩

/-- Claim C9: `get_pending_leaves` returns exactly the stored records
whose status is `pending`, and `get_employee_leaves` returns exactly the
stored records of the (uppercased) employee id; both are sublists of the
full store listing, so both preserve insertion order. -/
theorem claim_C9 (db : DB) (eid : String) :
    (∀ r, r ∈ get_pending_leaves db ↔
      r ∈ get_all_leaves db ∧ r.status = "pending") ∧
    List.Sublist (get_pending_leaves db) (get_all_leaves db) ∧
    (∀ r, r ∈ get_employee_leaves db eid ↔
      r ∈ get_all_leaves db ∧ r.employee_id = pyUpper eid) ∧
    List.Sublist (get_employee_leaves db eid) (get_all_leaves db) := by
  refine ⟨?_, ?_, ?_, ?_⟩
  · intro r
    simp [get_pending_leaves, get_all_leaves, List.mem_filter]
  · exact List.filter_sublist _
  · intro r
    simp [get_employee_leaves, get_all_leaves, List.mem_filter]
  · exact List.filter_sublist _

/-- Claim C10: request ids are handled case-insensitively.  `get_leave`
returns the same result on `s` and on `pyUpper s`, because the lookup
key is uppercased before consulting the store.  The three mutating
operations behave identically on `s` and `pyUpper s` as well: the
resulting state is the same, success results are the same, and a failure
is the same condition, differing at most in the raw id echoed back in
the `NotFound`/`InvalidTransition` message (Python interpolates the
argument as given), which `LeaveError.mapLeaveId pyUpper` accounts
for. -/
theorem claim_C10 (db : DB) (s rr : String) :
    get_leave db (pyUpper s) = get_leave db s ∧
    approve_leave_record db (pyUpper s) =
      ((approve_leave_record db s).1.mapError (LeaveError.mapLeaveId pyUpper),
       (approve_leave_record db s).2) ∧
    reject_leave_record db (pyUpper s) rr =
      ((reject_leave_record db s rr).1.mapError (LeaveError.mapLeaveId pyUpper),
       (reject_leave_record db s rr).2) ∧
    cancel_leave_record db (pyUpper s) =
      ((cancel_leave_record db s).1.mapError (LeaveError.mapLeaveId pyUpper),
       (cancel_leave_record db s).2) := by
  refine ⟨?_, ?_, ?_, ?_⟩
  · unfold get_leave
    rw [pyUpper_idem]
  · unfold approve_leave_record
    rw [pyUpper_idem]
    cases hrec : dictGet db.leaves (pyUpper s) with
    | none => simp [Except.mapError, LeaveError.mapLeaveId]
    | some record =>
      dsimp only
      by_cases hst : record.status = "pending"
      · rw [if_neg (fun hne => hne hst), if_neg (fun hne => hne hst)]
        cases hemp : dictGet db.employees record.employee_id with
        | none => simp [Except.mapError, LeaveError.mapLeaveId]
        | some emp =>
          dsimp only
          cases hbal : dictGet emp.leave_balance record.leave_type with
          | none => simp [Except.mapError, LeaveError.mapLeaveId]
          | some bal => simp [Except.mapError]
      · rw [if_pos hst, if_pos hst]
        simp [Except.mapError, LeaveError.mapLeaveId]
  · unfold reject_leave_record
    rw [pyUpper_idem]
    cases hrec : dictGet db.leaves (pyUpper s) with
    | none => simp [Except.mapError, LeaveError.mapLeaveId]
    | some record =>
      dsimp only
      by_cases hst : record.status = "pending"
      · rw [if_neg (fun hne => hne hst), if_neg (fun hne => hne hst)]
        simp [Except.mapError]
      · rw [if_pos hst, if_pos hst]
        simp [Except.mapError, LeaveError.mapLeaveId]
  · unfold cancel_leave_record
    rw [pyUpper_idem]
    cases hrec : dictGet db.leaves (pyUpper s) with
    | none => simp [Except.mapError, LeaveError.mapLeaveId]
    | some record =>
      dsimp only
      by_cases hst : record.status ≠ "pending" ∧ record.status ≠ "approved"
      · rw [if_pos hst, if_pos hst]
        simp [Except.mapError, LeaveError.mapLeaveId]
      · rw [if_neg hst, if_neg hst]
        by_cases hap : record.status = "approved"
        · rw [if_pos hap]
          cases hemp : dictGet db.employees record.employee_id with
          | none => simp [Except.mapError, LeaveError.mapLeaveId]
          | some emp =>
            dsimp only
            cases hbal : dictGet emp.leave_balance record.leave_type with
            | none => simp [Except.mapError, LeaveError.mapLeaveId]
            | some bal => simp [Except.mapError]
        · rw [if_neg hap]
          simp [Except.mapError]

end LeaveDB
